import Mathlib

/-!
Verification of the PararealML repository's natural-language specification
against its source code.

The numeric code is shallowly embedded over exact rationals (`ℚ`): Python
floats become `ℚ`, NumPy arrays become functions `ℕ → ℚ` (with explicit
size parameters; only indices below the size are meaningful), Python's
exceptions become `Except`/`Option`, and Python's built-in `round`
(round half to even, "banker's rounding") is embedded explicitly.
-/

namespace PararealML

/-- Python's built-in `round` on a rational number: round half to even
(banker's rounding), as used by `Operator._discretise_time_domain`
(operator.py line 81) and `UniformGrid._calculate_shape` (mesh.py line 131). -/
def pythonRound (q : ℚ) : ℤ :=
  let f := ⌊q⌋
  let r := q - f
  if r < 1 / 2 then f
  else if 1 / 2 < r then f + 1
  else if f % 2 = 0 then f else f + 1

/-- Embedding of `Operator._discretise_time_domain` (operator.py lines 66-83):
`steps = round((t_1 - t_0) / d_t)`, then `np.linspace(t_0, t_0 + steps * d_t,
steps + 1)`, which in exact arithmetic is the list `t_0 + k * d_t` for
`k = 0 .. steps`. -/
def discretiseTimeDomain (t0 t1 d_t : ℚ) : List ℚ :=
  let steps := pythonRound ((t1 - t0) / d_t)
  (List.range (steps.toNat + 1)).map (fun (k : ℕ) => t0 + (k : ℚ) * d_t)

/-- Embedding of the time coordinates of the `Solution` returned by
`FDMOperator.solve` (operator.py lines 332-348): the solution is constructed
with `time_points[1:]`, dropping the initial time point. -/
def fdmSolveTimeCoordinates (t0 t1 d_t : ℚ) : List ℚ :=
  (discretiseTimeDomain t0 t1 d_t).drop 1

theorem pythonRound_nonneg {q : ℚ} (hq : 0 ≤ q) : 0 ≤ pythonRound q := by
  have hf : (0 : ℤ) ≤ ⌊q⌋ := Int.floor_nonneg.mpr hq
  unfold pythonRound
  dsimp only
  split_ifs <;> omega

/-- C1: for every IVP time interval `(t₀, t₁)` with `t₁ > t₀` and every step
size `Δt > 0`, the time coordinates of the solution returned by
`FDMOperator.solve` are exactly `t₀ + k·Δt` for `k = 1..N` with
`N = round((t₁ − t₀)/Δt)` (Python banker's rounding, which is nonnegative
here); every coordinate is strictly greater than `t₀` (the initial point is
not included), and when `N ≥ 1` the last coordinate is the snapped end time
`t₀ + N·Δt`. -/
theorem fdm_solve_time_coordinates_spec (t0 t1 d_t : ℚ)
    (h1 : t0 < t1) (h2 : 0 < d_t) :
    0 ≤ pythonRound ((t1 - t0) / d_t) ∧
    fdmSolveTimeCoordinates t0 t1 d_t =
      (List.range (pythonRound ((t1 - t0) / d_t)).toNat).map
        (fun (k : ℕ) => t0 + ((k : ℚ) + 1) * d_t) ∧
    (∀ x ∈ fdmSolveTimeCoordinates t0 t1 d_t, t0 < x) ∧
    (1 ≤ (pythonRound ((t1 - t0) / d_t)).toNat →
      (fdmSolveTimeCoordinates t0 t1 d_t).getLast? =
        some (t0 + ((pythonRound ((t1 - t0) / d_t)).toNat : ℚ) * d_t)) := by
  have hnn : 0 ≤ pythonRound ((t1 - t0) / d_t) :=
    pythonRound_nonneg (le_of_lt (div_pos (by linarith) h2))
  set N := (pythonRound ((t1 - t0) / d_t)).toNat with hN
  have hzeta : discretiseTimeDomain t0 t1 d_t =
      (List.range (N + 1)).map (fun (k : ℕ) => t0 + (k : ℚ) * d_t) := rfl
  have hlist : fdmSolveTimeCoordinates t0 t1 d_t =
      (List.range N).map (fun (k : ℕ) => t0 + ((k : ℚ) + 1) * d_t) := by
    unfold fdmSolveTimeCoordinates
    rw [hzeta, List.range_succ_eq_map, List.map_cons, List.drop_one,
      List.tail_cons, List.map_map]
    refine List.map_congr_left ?_
    intro k _
    simp only [Function.comp_apply]
    push_cast
    ring
  refine ⟨hnn, hlist, ?_, ?_⟩
  · intro x hx
    rw [hlist] at hx
    obtain ⟨k, _, rfl⟩ := List.mem_map.mp hx
    have : (0 : ℚ) < ((k : ℚ) + 1) * d_t :=
      mul_pos (by positivity) h2
    linarith
  · intro hN1
    obtain ⟨M, hM⟩ : ∃ M, N = M + 1 := ⟨N - 1, by omega⟩
    rw [hlist, hM, List.range_succ, List.map_append, List.map_cons,
      List.map_nil, List.getLast?_concat]
    congr 1
    push_cast [hM]
    ring

/-- Witness for C1 at `t₀ = 0`, `t₁ = 1`, `Δt = 1/2`. -/
theorem fdm_solve_time_coordinates_spec_witness :
    0 ≤ pythonRound ((1 - 0) / (1 / 2)) ∧
    fdmSolveTimeCoordinates 0 1 (1 / 2) =
      (List.range (pythonRound ((1 - 0) / (1 / 2))).toNat).map
        (fun (k : ℕ) => 0 + ((k : ℚ) + 1) * (1 / 2)) ∧
    (∀ x ∈ fdmSolveTimeCoordinates 0 1 (1 / 2), 0 < x) ∧
    (1 ≤ (pythonRound ((1 - 0) / (1 / 2))).toNat →
      (fdmSolveTimeCoordinates 0 1 (1 / 2)).getLast? =
        some (0 + ((pythonRound ((1 - 0) / (1 / 2))).toNat : ℚ) * (1 / 2))) :=
  fdm_solve_time_coordinates_spec 0 1 (1 / 2) (by norm_num) (by norm_num)

/-- Embedding of `UniformGrid._calculate_shape` (mesh.py lines 121-133): for
each axis `i` the number of vertices is `round((b_i - a_i) / d_x_i + 1)`
using Python's built-in (banker's) rounding. The zip mirrors the loop over
`range(len(x_intervals))` together with the constructor's assertion
`len(x_intervals) == len(d_x)`. -/
def calculateShape (xIntervals : List (ℚ × ℚ)) (d_x : List ℚ) : List ℤ :=
  (xIntervals.zip d_x).map (fun p => pythonRound ((p.1.2 - p.1.1) / p.2 + 1))

/-- C9 counterexample: with interval `[0, 5/2]` and step size `1`, the code
computes `round(2.5 + 1) = round(3.5) = 4` vertices (banker's rounding),
whereas the claim's formula `round(2.5) + 1 = 2 + 1 = 3` gives `3`. -/
theorem calculate_shape_counterexample :
    calculateShape [(0, 5 / 2)] [1] = [4] ∧
    pythonRound (((5 / 2 : ℚ) - 0) / 1) + 1 = 3 ∧
    (4 : ℤ) ≠ 3 := by
  have h1 : pythonRound (7 / 2) = 4 := by
    unfold pythonRound
    norm_num
  have h2 : pythonRound (5 / 2) = 2 := by
    unfold pythonRound
    norm_num
  refine ⟨?_, ?_, by decide⟩
  · have : calculateShape [(0, 5 / 2)] [1] = [pythonRound (7 / 2)] := by
      norm_num [calculateShape]
    rw [this, h1]
  · norm_num [h2]

/-- C9 (amended): for every mesh axis `i` with interval `[a, b]`, `b > a`, and
step size `Δx > 0`, the number of vertices computed along that axis is
`round((b − a)/Δx + 1)` with Python's banker's rounding; this agrees with the
claim's `round((b − a)/Δx) + 1` whenever `(b − a)/Δx` is not an exact
half-integer tie. -/
theorem calculate_shape_spec (xIntervals : List (ℚ × ℚ)) (d_x : List ℚ)
    (i : ℕ) (a b dx : ℚ)
    (hx : xIntervals[i]? = some (a, b)) (hd : d_x[i]? = some dx)
    (hlen : xIntervals.length = d_x.length)
    (hdx : 0 < dx) (hab : a < b) :
    (calculateShape xIntervals d_x)[i]? =
      some (pythonRound ((b - a) / dx + 1)) ∧
    ((b - a) / dx - (⌊(b - a) / dx⌋ : ℚ) ≠ 1 / 2 →
      pythonRound ((b - a) / dx + 1) = pythonRound ((b - a) / dx) + 1) := by
  constructor
  · have hi : i < xIntervals.length := by
      by_contra hcon
      rw [List.getElem?_eq_none (by omega)] at hx
      exact Option.noConfusion hx
    have hzip : (xIntervals.zip d_x)[i]? = some ((a, b), dx) := by
      rw [List.getElem?_zip_eq_some]
      exact ⟨hx, hd⟩
    unfold calculateShape
    rw [List.getElem?_map, hzip]
    rfl
  · intro htie
    set q := (b - a) / dx with hq
    have hfl : ⌊q + 1⌋ = ⌊q⌋ + 1 := Int.floor_add_one q
    have hfr : q + 1 - ((⌊q⌋ : ℚ) + 1) = q - ⌊q⌋ := by ring
    unfold pythonRound
    dsimp only
    rw [hfl]
    push_cast
    rw [hfr]
    split_ifs with h1 h2 h3 <;> try omega
    · exact absurd (le_antisymm (not_lt.mp h2) (not_lt.mp h1)) htie
    · exact absurd (le_antisymm (not_lt.mp h2) (not_lt.mp h1)) htie

/-- Witness for C9 at interval `[0, 2]`, step size `1`: the shape is
`round(3) = 3 = round(2) + 1`. -/
theorem calculate_shape_spec_witness :
    (calculateShape [(0, 2)] [1])[0]? =
      some (pythonRound (((2 : ℚ) - 0) / 1 + 1)) ∧
    (((2 : ℚ) - 0) / 1 - (⌊((2 : ℚ) - 0) / 1⌋ : ℚ) ≠ 1 / 2 →
      pythonRound (((2 : ℚ) - 0) / 1 + 1) = pythonRound (((2 : ℚ) - 0) / 1) + 1) :=
  calculate_shape_spec [(0, 2)] [1] 0 0 2 1 (by decide) (by decide) (by decide)
    (by norm_num) (by norm_num)

/-- Embedding of `InitialValueProblem` from
src/code/python/src/core/initial_value_problem.py: only the time interval is
relevant to claim C8. -/
structure InitialValueProblem where
  tInterval : ℚ × ℚ

/-- Embedding of `InitialValueProblem.__init__` (initial_value_problem.py
lines 36-46): the constructor asserts `t_interval[0] <= t_interval[1]`
(line 40, a NON-strict inequality) and otherwise stores a copy of the
interval; a failed assertion is modelled as `none`. -/
def mkInitialValueProblem (tInterval : ℚ × ℚ) : Option InitialValueProblem :=
  if tInterval.1 ≤ tInterval.2 then some ⟨tInterval⟩ else none

/-- C8 counterexample: the degenerate interval `(0, 0)` is accepted by the
constructor even though `t₁ > t₀` fails, contradicting the claim that
construction with `t₁ ≤ t₀` fails. -/
theorem mk_initial_value_problem_counterexample :
    (mkInitialValueProblem (0, 0)).isSome = true ∧ ¬ ((0 : ℚ) < 0) := by
  constructor
  · rfl
  · norm_num

/-- C8 (amended): constructing an `InitialValueProblem` with time interval
`(t₀, t₁)` succeeds if and only if `t₁ ≥ t₀` (construction fails exactly when
`t₁ < t₀`), and every successfully constructed IVP satisfies `t₁ ≥ t₀`. -/
theorem mk_initial_value_problem_spec (t : ℚ × ℚ) :
    ((mkInitialValueProblem t).isSome = true ↔ t.1 ≤ t.2) ∧
    (∀ ivp, mkInitialValueProblem t = some ivp →
      ivp.tInterval.1 ≤ ivp.tInterval.2) := by
  unfold mkInitialValueProblem
  constructor
  · split_ifs with h <;> simp [h]
  · intro ivp hivp
    split_ifs at hivp with h
    cases hivp
    exact h

/-- Witness for C8 at the interval `(0, 1)`. -/
theorem mk_initial_value_problem_spec_witness :
    (((mkInitialValueProblem ((0 : ℚ), (1 : ℚ))).isSome = true ↔
      (0 : ℚ) ≤ 1) ∧
    (∀ ivp, mkInitialValueProblem ((0 : ℚ), (1 : ℚ)) = some ivp →
      ivp.tInterval.1 ≤ ivp.tInterval.2)) :=
  mk_initial_value_problem_spec (0, 1)

/-- Embedding of `LorenzEquation.symbolic_equation_system`
(differential_equation.py lines 352-361), with the symbolic right-hand sides
evaluated at a concrete state `(c, h, v)`. -/
def lorenzEquationRhs (sigma rho beta c h v : ℚ) : List ℚ :=
  [sigma * (h - c), c * (rho - v) - h, c * h - beta * v]

/-- Embedding of `LorenzDiffEq.d_y` (src/code/python/src/diff_eq.py lines
209-217). The result array is created with `np.empty(3)` (uninitialized
memory, modelled by the arbitrary function `empty`), then the code assigns
`d_y_arr[0]`, assigns `d_y_arr[1]`, and then assigns `d_y_arr[1]` AGAIN
(instead of `d_y_arr[2]`), so index 2 is never written. -/
def lorenzDiffEqDY (sigma rho beta : ℚ) (y : ℕ → ℚ) (empty : ℕ → ℚ) :
    ℕ → ℚ :=
  let c := y 0
  let h := y 1
  let v := y 2
  let a0 := Function.update empty 0 (sigma * (h - c))
  let a1 := Function.update a0 1 (c * (rho - v) - h)
  Function.update a1 1 (c * h - beta * v)

/-- C4: at `σ = 10`, `ρ = 28`, `β = 8/3` and state `(1, 1, 1)` (with the
uninitialized array modelled as the constant `99`), `LorenzDiffEq.d_y`
returns `c·h − β·v = −5/3` in component 1 — not the canonical
`c(ρ − v) − h = 26` — and leaves component 2 at its uninitialized value,
while `LorenzEquation.symbolic_equation_system` does produce the canonical
vector `(0, 26, −5/3)`. -/
theorem lorenz_d_y_failing_input :
    lorenzDiffEqDY 10 28 (8 / 3) (fun _ => 1) (fun _ => 99) 1 = -5 / 3 ∧
    lorenzDiffEqDY 10 28 (8 / 3) (fun _ => 1) (fun _ => 99) 2 = 99 ∧
    lorenzEquationRhs 10 28 (8 / 3) 1 1 1 = [0, 26, -5 / 3] ∧
    ((-5 / 3 : ℚ) ≠ 26) := by
  refine ⟨?_, ?_, ?_, by norm_num⟩ <;>
    norm_num [lorenzDiffEqDY, lorenzEquationRhs, Function.update]

/-- Modelled from the spec: `Constraint` from `pararealml.core.constraint`
(the module is imported by numerical_differentiator.py but is not under
src/). Per the spec's data model, a constraint is a mask-plus-values pair
over its target array; here it is instantiated for the single boundary point
of a one-dimensional mesh face, so mask and value are scalars. -/
structure Constraint where
  mask : Bool
  value : ℚ

/-- Modelled from the spec: `Constraint.apply` sets the masked entries of its
argument to the constraint values (an in-place overwrite in the source; here
the updated value is returned). -/
def Constraint.applyScalar (c : Constraint) (x : ℚ) : ℚ :=
  if c.mask then c.value else x

/-- Modelled from the spec: `Constraint.multiply_and_add(addend, multiplier,
result)` writes `addend + multiplier * values` into the masked entries of
`result` (the spec: halo ghost values are synthesized from Neumann data via
`multiply_and_add(y_adjacent, ±2Δx, halo)`); unmasked entries of `result`
are left as they are. -/
def Constraint.multiplyAndAdd (c : Constraint) (addend multiplier out : ℚ) :
    ℚ :=
  if c.mask then addend + multiplier * c.value else out

/-- Error tags for the numerical differentiator, mirroring the spec's error
kinds for the `ValueError`s raised in numerical_differentiator.py. -/
inductive DiffErr
  | insufficientStencilWidth
  | shapeMismatch
deriving DecidableEq

/-- A sequence of optional derivative boundary constraint pairs, one entry
per y component (`Sequence[Optional[BoundaryConstraintPair]]` in
numerical_differentiator.py lines 10-15). -/
abbrev DerivBC : Type := List (Option (Option Constraint × Option Constraint))

/-- The three-point central difference array written by
`ThreePointCentralDifferenceMethod._derivative` (numerical_differentiator.py
lines 885-919) before derivative boundary constraints are applied, for a
one-dimensional mesh of `n` vertices: index `0` holds `y[1]/(2Δx)` (the
value outside the mesh is implicitly zero), indices `1..n-2` hold
`(y[i+1] - y[i-1])/(2Δx)`, and index `n-1` holds `-y[n-2]/(2Δx)`. -/
def centralDiffBase (n : ℕ) (y : ℕ → ℕ → ℚ) (d_x : ℚ) : ℕ → ℕ → ℚ :=
  fun i j =>
    if i = 0 then y 1 j / (2 * d_x)
    else if i = n - 1 then -(y (n - 2) j) / (2 * d_x)
    else (y (i + 1) j - y (i - 1) j) / (2 * d_x)

/-- The constraint-application loop of
`ThreePointCentralDifferenceMethod._derivative` (numerical_differentiator.py
lines 921-939): for each component with a constraint pair, the lower
constraint is applied to the row at index 0 and the upper constraint to the
row at index `n - 1`. -/
def applyDerivativeBoundaryConstraints (n : ℕ) (dbc : DerivBC)
    (d : ℕ → ℕ → ℚ) : ℕ → ℕ → ℚ :=
  fun i j =>
    match dbc[j]? with
    | some (some pair) =>
      if i = 0 then
        match pair.1 with
        | some c => c.applyScalar (d i j)
        | none => d i j
      else if i = n - 1 then
        match pair.2 with
        | some c => c.applyScalar (d i j)
        | none => d i j
      else d i j
    | _ => d i j

/-- Embedding of `ThreePointCentralDifferenceMethod._derivative`
(numerical_differentiator.py lines 869-941) for a one-dimensional mesh with
`n` vertices and `m` y components: it raises if `n ≤ 2` (line 876), raises if
the derivative boundary constraint count differs from the y component count
(line 879), and otherwise returns the central-difference array with the
boundary constraints applied. -/
def derivative (n m : ℕ) (y : ℕ → ℕ → ℚ) (d_x : ℚ) (dbc : DerivBC) :
    Except DiffErr (ℕ → ℕ → ℚ) :=
  if n ≤ 2 then .error .insufficientStencilWidth
  else if dbc.length ≠ m then .error .shapeMismatch
  else .ok (applyDerivativeBoundaryConstraints n dbc (centralDiffBase n y d_x))

/-- Embedding of
`ThreePointCentralDifferenceMethod._halos_from_derivative_boundary_constraints`
(numerical_differentiator.py lines 1373-1417): the halos start as zeros and,
for each component with a constraint pair, the lower halo becomes
`y_adjacent - 2Δx · d` and the upper halo `y_adjacent + 2Δx · d` at the
masked boundary points via `Constraint.multiply_and_add`. -/
def halosFromDerivativeBoundaryConstraints (yLowerAdj yUpperAdj : ℕ → ℚ)
    (d_x : ℚ) (dbc : DerivBC) : (ℕ → ℚ) × (ℕ → ℚ) :=
  (fun j =>
    match dbc[j]? with
    | some (some (some c, _)) => c.multiplyAndAdd (yLowerAdj j) (-(2 * d_x)) 0
    | _ => 0,
   fun j =>
    match dbc[j]? with
    | some (some (_, some c)) => c.multiplyAndAdd (yUpperAdj j) (2 * d_x) 0
    | _ => 0)

/-- Embedding of `ThreePointCentralDifferenceMethod._second_derivative`
(numerical_differentiator.py lines 943-1021) for a one-dimensional mesh
(where the two differentiation axes necessarily coincide, so only the
same-axis branch starting at line 964 applies): it raises if `n ≤ 2`, and
otherwise index 0 holds `(y[1] - 2y[0] + halo_lo)/(Δx₁Δx₂)`, indices
`1..n-2` hold `(y[i+1] - 2y[i] + y[i-1])/(Δx₁Δx₂)`, and index `n-1` holds
`(halo_hi - 2y[n-1] + y[n-2])/(Δx₁Δx₂)`. -/
def secondDerivative (n : ℕ) (y : ℕ → ℕ → ℚ) (d_x1 d_x2 : ℚ)
    (dbc : DerivBC) : Except DiffErr (ℕ → ℕ → ℚ) :=
  if n ≤ 2 then .error .insufficientStencilWidth
  else
    .ok (let dxSq := d_x1 * d_x2
      let lowAdj : ℕ → ℚ := fun j => y 1 j
      let upAdj : ℕ → ℚ := fun j => y (n - 2) j
      let halos := halosFromDerivativeBoundaryConstraints lowAdj upAdj d_x1 dbc
      fun i j =>
        if i = 0 then (lowAdj j - 2 * y 0 j + halos.1 j) / dxSq
        else if i = n - 1 then (halos.2 j - 2 * y (n - 1) j + upAdj j) / dxSq
        else (y (i + 1) j - 2 * y i j + y (i - 1) j) / dxSq)

/-- The update array computed by
`ThreePointCentralDifferenceMethod._next_anti_laplacian_estimate`
(numerical_differentiator.py lines 1034-1087) for a one-dimensional
CARTESIAN mesh: the single axis has step-size coefficient 1 (an empty
product), so the update is `(neighbor_sum - Δx²·laplacian) / 2`, where the
neighbor sum uses the synthesized halos at the two boundaries. -/
def nextAntiLaplacianEstimateBase (n : ℕ) (yHat lap : ℕ → ℕ → ℚ) (d_x : ℚ)
    (dbc : DerivBC) : ℕ → ℕ → ℚ :=
  let lowAdj : ℕ → ℚ := fun j => yHat 1 j
  let upAdj : ℕ → ℚ := fun j => yHat (n - 2) j
  let halos := halosFromDerivativeBoundaryConstraints lowAdj upAdj d_x dbc
  fun i j =>
    let nb :=
      if i = 0 then halos.1 j + lowAdj j
      else if i = n - 1 then upAdj j + halos.2 j
      else yHat (i - 1) j + yHat (i + 1) j
    (nb - d_x ^ 2 * lap i j) / 2

/-- Embedding of
`ThreePointCentralDifferenceMethod._next_anti_laplacian_estimate`
(numerical_differentiator.py lines 1023-1087) for a one-dimensional
Cartesian mesh: it raises unless every spatial axis has more than 2 points
(line 1030). -/
def nextAntiLaplacianEstimate (n : ℕ) (yHat lap : ℕ → ℕ → ℚ) (d_x : ℚ)
    (dbc : DerivBC) : Except DiffErr (ℕ → ℕ → ℚ) :=
  if n ≤ 2 then .error .insufficientStencilWidth
  else .ok (nextAntiLaplacianEstimateBase n yHat lap d_x dbc)

/-- Modelled from the spec: a solution-value constraint over the whole
(one-dimensional) spatial mesh, as produced by the `ConstrainedProblem` for
Dirichlet boundaries — a mask-plus-values pair of the mesh's vertex shape
(`pararealml.core.constraint` is not under src/). -/
structure MeshConstraint where
  mask : ℕ → Bool
  values : ℕ → ℚ

/-- Modelled from the spec: `apply_constraints_along_last_axis` from
`pararealml.core.constraint` (not under src/) applies the per-component
constraints to the corresponding last-axis slices of the array, overwriting
the masked entries in place; functionally, the returned array agrees with
`y` outside the masks. -/
def applyConstraintsAlongLastAxis (yc : List (Option MeshConstraint))
    (y : ℕ → ℕ → ℚ) : ℕ → ℕ → ℚ :=
  fun i j =>
    match yc[j]? with
    | some (some c) => if c.mask i then c.values i else y i j
    | _ => y i j

/-- One sweep of the Jacobi loop body in
`NumericalDifferentiator.anti_laplacian` (numerical_differentiator.py lines
813-820): compute the next anti-Laplacian estimate from the previous one and
then apply the y (Dirichlet) constraints. -/
def jacobiSweep (n : ℕ) (lap : ℕ → ℕ → ℚ) (d_x : ℚ)
    (yc : List (Option MeshConstraint)) (dbc : DerivBC)
    (y : ℕ → ℕ → ℚ) : ℕ → ℕ → ℚ :=
  applyConstraintsAlongLastAxis yc (nextAntiLaplacianEstimateBase n y lap d_x dbc)

/-- The squared Frobenius 2-norm of the difference of two `n × m` arrays:
`np.linalg.norm(y - y_old)` at numerical_differentiator.py line 822 is its
square root, so for a nonnegative tolerance the loop guard
`norm(y - y_old) > tol` is equivalent to `normSq > tol²`. -/
def normSq (n m : ℕ) (a b : ℕ → ℕ → ℚ) : ℚ :=
  ∑ i ∈ Finset.range n, ∑ j ∈ Finset.range m, (a i j - b i j) ^ 2

/-- Embedding of the `while diff > self._tol` loop of
`NumericalDifferentiator.anti_laplacian` (numerical_differentiator.py lines
812-824), with an explicit fuel parameter standing for a number of allowed
iterations (the source has no cap; `none` means the loop is still running
after `fuel` sweeps). The guard compares squared quantities, which for the
nonnegative tolerance enforced at construction (line 30) is equivalent to
the source's comparison of the 2-norm with the tolerance. -/
def antiLaplacianLoop (n m : ℕ) (tol d_x : ℚ) (lap : ℕ → ℕ → ℚ)
    (yc : List (Option MeshConstraint)) (dbc : DerivBC) :
    ℕ → (ℕ → ℕ → ℚ) → Option (ℕ → ℕ → ℚ)
  | 0, _ => none
  | fuel + 1, y =>
    let yNew := jacobiSweep n lap d_x yc dbc y
    if tol ^ 2 < normSq n m yNew y then
      antiLaplacianLoop n m tol d_x lap yc dbc fuel yNew
    else some yNew

/-- Embedding of `NumericalDifferentiator.anti_laplacian`
(numerical_differentiator.py lines 767-824) for a caller-supplied initial
estimate on a one-dimensional Cartesian mesh: the y constraints are applied
to the initial estimate (line 810) and then the Jacobi loop runs. -/
def antiLaplacian (n m : ℕ) (tol d_x : ℚ) (lap : ℕ → ℕ → ℚ)
    (yc : List (Option MeshConstraint)) (dbc : DerivBC) (fuel : ℕ)
    (yInit : ℕ → ℕ → ℚ) : Option (ℕ → ℕ → ℚ) :=
  antiLaplacianLoop n m tol d_x lap yc dbc fuel
    (applyConstraintsAlongLastAxis yc yInit)

/-- The iterates of the Jacobi sweep starting from a given array. -/
def jacobiSeq (n : ℕ) (lap : ℕ → ℕ → ℚ) (d_x : ℚ)
    (yc : List (Option MeshConstraint)) (dbc : DerivBC)
    (start : ℕ → ℕ → ℚ) : ℕ → (ℕ → ℕ → ℚ)
  | 0 => start
  | k + 1 => jacobiSweep n lap d_x yc dbc (jacobiSeq n lap d_x yc dbc start k)

/-- The contents of the caller-supplied `y_init` buffer after
`NumericalDifferentiator.anti_laplacian` returns: line 808 binds `y`
directly to `y_init` without copying and line 810 applies the y constraints
to `y` IN PLACE (`Constraint.apply` overwrites the masked entries of its
argument, per the spec's Constraint contract); all later estimates are
freshly allocated arrays, so the buffer's final contents are the
constraint-applied initial estimate. -/
def antiLaplacianYInitAfter (yc : List (Option MeshConstraint))
    (yInit : ℕ → ℕ → ℚ) : ℕ → ℕ → ℚ :=
  applyConstraintsAlongLastAxis yc yInit

/-- C2: for every array with at least 3 points along the differentiated axis
and every interior index `i` (`1 ≤ i ≤ n − 2`), the first derivative computed
by the three-point central difference method is `(y[i+1] − y[i−1])/(2Δx)` and
the same-axis second derivative is `(y[i+1] − 2y[i] + y[i−1])/Δx²`. -/
theorem three_point_interior_stencils (n m : ℕ) (y : ℕ → ℕ → ℚ) (d_x : ℚ)
    (dbc : DerivBC) (hn : 3 ≤ n) (hlen : dbc.length = m)
    (i : ℕ) (hi1 : 1 ≤ i) (hi2 : i ≤ n - 2) (j : ℕ) :
    (derivative n m y d_x dbc).map (fun d => d i j) =
      .ok ((y (i + 1) j - y (i - 1) j) / (2 * d_x)) ∧
    (secondDerivative n y d_x d_x dbc).map (fun d => d i j) =
      .ok ((y (i + 1) j - 2 * y i j + y (i - 1) j) / d_x ^ 2) := by
  have hne2 : ¬ n ≤ 2 := by omega
  have h0 : ¬ i = 0 := by omega
  have hl : ¬ i = n - 1 := by omega
  constructor
  · unfold derivative
    rw [if_neg hne2, if_neg (by simp [hlen])]
    simp only [Except.map]
    congr 1
    unfold applyDerivativeBoundaryConstraints centralDiffBase
    cases hdbc : dbc[j]? with
    | none => simp [h0, hl]
    | some o =>
      cases o with
      | none => simp [h0, hl]
      | some pair => simp [h0, hl]
  · unfold secondDerivative
    rw [if_neg hne2]
    simp only [Except.map]
    congr 1
    simp only [h0, hl, if_false]
    rw [sq]

/-- Witness array for C2: a concrete vertical slice with 3 points and one
component. -/
def c2WitnessY : ℕ → ℕ → ℚ :=
  fun i _ => if i = 0 then 2 else if i = 1 then 5 else 11

/-- Witness for C2 on a 3-point mesh with `Δx = 1` at the interior index 1. -/
theorem three_point_interior_stencils_witness :
    (derivative 3 1 c2WitnessY 1 [none]).map (fun d => d 1 0) =
      .ok ((c2WitnessY 2 0 - c2WitnessY 0 0) / (2 * 1)) ∧
    (secondDerivative 3 c2WitnessY 1 1 [none]).map (fun d => d 1 0) =
      .ok ((c2WitnessY 2 0 - 2 * c2WitnessY 1 0 + c2WitnessY 0 0) / 1 ^ 2) :=
  three_point_interior_stencils 3 1 c2WitnessY 1 [none] (by norm_num) rfl 1
    (by norm_num) (by norm_num) 0

/-- C5: on any axis with fewer than 3 points, the derivative, the same-axis
second derivative and the next-anti-Laplacian-estimate computations all fail
with the insufficient-stencil-width error, and with at least 3 points that
error branch is unreachable for all three. -/
theorem insufficient_stencil_width_iff (n m : ℕ) (y lap : ℕ → ℕ → ℚ)
    (d_x1 d_x2 : ℚ) (dbc : DerivBC) :
    (n < 3 →
      derivative n m y d_x1 dbc = .error .insufficientStencilWidth ∧
      secondDerivative n y d_x1 d_x2 dbc = .error .insufficientStencilWidth ∧
      nextAntiLaplacianEstimate n y lap d_x1 dbc =
        .error .insufficientStencilWidth) ∧
    (3 ≤ n →
      derivative n m y d_x1 dbc ≠ .error .insufficientStencilWidth ∧
      secondDerivative n y d_x1 d_x2 dbc ≠ .error .insufficientStencilWidth ∧
      nextAntiLaplacianEstimate n y lap d_x1 dbc ≠
        .error .insufficientStencilWidth) := by
  constructor
  · intro h
    have h2 : n ≤ 2 := by omega
    exact ⟨by simp [derivative, h2], by simp [secondDerivative, h2],
      by simp [nextAntiLaplacianEstimate, h2]⟩
  · intro h
    have h2 : ¬ n ≤ 2 := by omega
    refine ⟨?_, ?_, ?_⟩
    · unfold derivative
      rw [if_neg h2]
      split_ifs <;> simp
    · unfold secondDerivative
      rw [if_neg h2]
      simp
    · unfold nextAntiLaplacianEstimate
      rw [if_neg h2]
      simp

/-- Witness for C5: a 2-point axis fails with the stencil-width error while a
3-point axis does not. -/
theorem insufficient_stencil_width_iff_witness :
    derivative 2 1 (fun _ _ => 0) 1 [none] =
      .error .insufficientStencilWidth ∧
    derivative 3 1 (fun _ _ => 0) 1 [none] ≠
      .error .insufficientStencilWidth :=
  ⟨((insufficient_stencil_width_iff 2 1 (fun _ _ => 0) (fun _ _ => 0) 1 1
      [none]).1 (by norm_num)).1,
   ((insufficient_stencil_width_iff 3 1 (fun _ _ => 0) (fun _ _ => 0) 1 1
      [none]).2 (by norm_num)).1⟩

/-- C10: at the physical boundaries along the differentiated axis, for a
component with no derivative boundary constraint the first derivative is
`y[1]/(2Δx)` at the lower boundary and `−y[n−2]/(2Δx)` at the upper boundary
(the value just outside the mesh is implicitly zero); when present and
masked, constraints overwrite these boundary derivative values directly. -/
theorem derivative_boundary_values (n m : ℕ) (y : ℕ → ℕ → ℚ) (d_x : ℚ)
    (dbc : DerivBC) (hn : 3 ≤ n) (hlen : dbc.length = m) (j : ℕ) :
    (dbc[j]? = some none →
      (derivative n m y d_x dbc).map (fun d => d 0 j) =
        .ok (y 1 j / (2 * d_x)) ∧
      (derivative n m y d_x dbc).map (fun d => d (n - 1) j) =
        .ok (-(y (n - 2) j) / (2 * d_x))) ∧
    (∀ cLo cHi, dbc[j]? = some (some (some cLo, some cHi)) →
      cLo.mask = true → cHi.mask = true →
      (derivative n m y d_x dbc).map (fun d => d 0 j) = .ok cLo.value ∧
      (derivative n m y d_x dbc).map (fun d => d (n - 1) j) =
        .ok cHi.value) := by
  have hne2 : ¬ n ≤ 2 := by omega
  have hn1 : ¬ n - 1 = 0 := by omega
  have hok : derivative n m y d_x dbc =
      .ok (applyDerivativeBoundaryConstraints n dbc (centralDiffBase n y d_x)) := by
    unfold derivative
    rw [if_neg hne2, if_neg (by simp [hlen])]
  constructor
  · intro hnone
    rw [hok]
    unfold applyDerivativeBoundaryConstraints centralDiffBase
    constructor <;> simp [Except.map, hnone, hn1]
  · intro cLo cHi hsome hmLo hmHi
    rw [hok]
    unfold applyDerivativeBoundaryConstraints centralDiffBase
    constructor <;>
      simp [Except.map, hsome, hn1, Constraint.applyScalar, hmLo, hmHi]

/-- Witness boundary-constraint list for C10: component 0 unconstrained,
component 1 constrained on both faces. -/
def c10WitnessDbc : DerivBC :=
  [none, some (some ⟨true, 7⟩, some ⟨true, 8⟩)]

/-- Witness for C10 on a 3-point mesh with `Δx = 1`: component 0 gets the
implicit-zero boundary formulas, component 1 gets the constraint values. -/
theorem derivative_boundary_values_witness :
    ((derivative 3 2 c2WitnessY 1 c10WitnessDbc).map (fun d => d 0 0) =
      .ok (c2WitnessY 1 0 / (2 * 1)) ∧
     (derivative 3 2 c2WitnessY 1 c10WitnessDbc).map (fun d => d (3 - 1) 0) =
      .ok (-(c2WitnessY (3 - 2) 0) / (2 * 1))) ∧
    ((derivative 3 2 c2WitnessY 1 c10WitnessDbc).map (fun d => d 0 1) =
      .ok (Constraint.mk true 7).value ∧
     (derivative 3 2 c2WitnessY 1 c10WitnessDbc).map (fun d => d (3 - 1) 1) =
      .ok (Constraint.mk true 8).value) :=
  ⟨(derivative_boundary_values 3 2 c2WitnessY 1 c10WitnessDbc (by norm_num)
      rfl 0).1 rfl,
   (derivative_boundary_values 3 2 c2WitnessY 1 c10WitnessDbc (by norm_num)
      rfl 1).2 ⟨true, 7⟩ ⟨true, 8⟩ rfl rfl rfl⟩

/-- C6 counterexample: with a y constraint fixing mesh point 0 of component 0
to the value 0, a caller-supplied `y_init` that is 1 everywhere has been
mutated at entry `(0, 0)` once `anti_laplacian` returns. -/
theorem anti_laplacian_y_init_mutation_counterexample :
    antiLaplacianYInitAfter [some ⟨fun i => i == 0, fun _ => 0⟩]
        (fun _ _ => 1) 0 0 ≠
      (fun (_ _ : ℕ) => (1 : ℚ)) 0 0 := by
  norm_num [antiLaplacianYInitAfter, applyConstraintsAlongLastAxis]

/-- C6 (amended): the stencil operations write to freshly allocated output
arrays and leave `y` unchanged, but `anti_laplacian` applies the y
constraints in place to a caller-supplied `y_init` before iterating, so the
buffer is left unchanged if and only if the initial estimate already
satisfies every masked constraint entry. -/
theorem anti_laplacian_y_init_mutation (yc : List (Option MeshConstraint))
    (yInit : ℕ → ℕ → ℚ) :
    antiLaplacianYInitAfter yc yInit = yInit ↔
      ∀ j c, yc[j]? = some (some c) →
        ∀ i, c.mask i = true → c.values i = yInit i j := by
  unfold antiLaplacianYInitAfter applyConstraintsAlongLastAxis
  constructor
  · intro h j c hc i hm
    have hij := congrFun (congrFun h i) j
    rw [hc] at hij
    simpa [hm] using hij
  · intro h
    funext i j
    cases hc : yc[j]? with
    | none => rfl
    | some o =>
      cases o with
      | none => rfl
      | some c =>
        by_cases hm : c.mask i
        · simp only [if_pos hm]
          exact h j c hc i hm
        · simp only [if_neg hm]

theorem jacobiSeq_sweep (n : ℕ) (lap : ℕ → ℕ → ℚ) (d_x : ℚ)
    (yc : List (Option MeshConstraint)) (dbc : DerivBC)
    (start : ℕ → ℕ → ℚ) (k : ℕ) :
    jacobiSeq n lap d_x yc dbc (jacobiSweep n lap d_x yc dbc start) k =
      jacobiSeq n lap d_x yc dbc start (k + 1) := by
  induction k with
  | zero => rfl
  | succ k ih =>
    show jacobiSweep n lap d_x yc dbc _ = jacobiSweep n lap d_x yc dbc _
    rw [ih]

theorem antiLaplacianLoop_isSome_iff (n m : ℕ) (tol d_x : ℚ)
    (lap : ℕ → ℕ → ℚ) (yc : List (Option MeshConstraint)) (dbc : DerivBC)
    (fuel : ℕ) (start : ℕ → ℕ → ℚ) :
    (antiLaplacianLoop n m tol d_x lap yc dbc fuel start).isSome = true ↔
      ∃ k < fuel,
        normSq n m (jacobiSeq n lap d_x yc dbc start (k + 1))
          (jacobiSeq n lap d_x yc dbc start k) ≤ tol ^ 2 := by
  induction fuel generalizing start with
  | zero => simp [antiLaplacianLoop]
  | succ fuel ih =>
    rw [antiLaplacianLoop]
    by_cases h :
        tol ^ 2 < normSq n m (jacobiSweep n lap d_x yc dbc start) start
    · rw [if_pos h, ih]
      constructor
      · rintro ⟨k, hk, hc⟩
        rw [jacobiSeq_sweep, jacobiSeq_sweep] at hc
        exact ⟨k + 1, by omega, hc⟩
      · rintro ⟨k, hk, hc⟩
        match k with
        | 0 => exact absurd hc (not_le.mpr h)
        | k + 1 =>
          refine ⟨k, by omega, ?_⟩
          rw [jacobiSeq_sweep, jacobiSeq_sweep]
          exact hc
    · rw [if_neg h]
      exact iff_of_true rfl ⟨0, by omega, not_lt.mp h⟩

/-- C3 counterexample problem data: the Laplacian right-hand side is `−2` at
the middle point of the single component on a 3-vertex mesh and `0`
elsewhere. -/
def c3Lap : ℕ → ℕ → ℚ := fun i j => if i = 1 ∧ j = 0 then -2 else 0

/-- C3 counterexample constraint: the single component's boundary vertices 0
and 2 are fixed to the value 0. -/
def c3Yc : List (Option MeshConstraint) :=
  [some ⟨fun i => i == 0 || i == 2, fun _ => 0⟩]

/-- C3 counterexample: with tolerance `1`, starting from the zero array, the
first Jacobi sweep produces a difference of 2-norm EXACTLY `1 = tol`; the
loop guard `diff > tol` is false, so `anti_laplacian` stops and returns,
even though the norm has not dropped strictly below the tolerance — refuting
the claim that the iteration stops exactly when the norm drops below the
tolerance. -/
theorem anti_laplacian_stops_at_tolerance_counterexample :
    (antiLaplacian 3 1 1 1 c3Lap c3Yc [none] 1 (fun _ _ => 0)).isSome =
      true ∧
    ¬ (normSq 3 1
        (jacobiSeq 3 c3Lap 1 c3Yc [none]
          (applyConstraintsAlongLastAxis c3Yc (fun _ _ => 0)) 1)
        (applyConstraintsAlongLastAxis c3Yc (fun _ _ => 0)) < 1 ^ 2) := by
  have hs0 : jacobiSweep 3 c3Lap 1 c3Yc [none]
      (applyConstraintsAlongLastAxis c3Yc (fun _ _ => 0)) 0 0 = 0 := rfl
  have hs2 : jacobiSweep 3 c3Lap 1 c3Yc [none]
      (applyConstraintsAlongLastAxis c3Yc (fun _ _ => 0)) 2 0 = 0 := rfl
  have hs1 : jacobiSweep 3 c3Lap 1 c3Yc [none]
      (applyConstraintsAlongLastAxis c3Yc (fun _ _ => 0)) 1 0 = 1 := by
    show ((0 : ℚ) + 0 - 1 ^ 2 * (-2)) / 2 = 1
    norm_num
  have hz0 : applyConstraintsAlongLastAxis c3Yc (fun _ _ => 0) 0 0 = 0 := rfl
  have hz1 : applyConstraintsAlongLastAxis c3Yc (fun _ _ => 0) 1 0 = 0 := rfl
  have hz2 : applyConstraintsAlongLastAxis c3Yc (fun _ _ => 0) 2 0 = 0 := rfl
  have hnorm : normSq 3 1
      (jacobiSweep 3 c3Lap 1 c3Yc [none]
        (applyConstraintsAlongLastAxis c3Yc (fun _ _ => 0)))
      (applyConstraintsAlongLastAxis c3Yc (fun _ _ => 0)) = 1 := by
    unfold normSq
    rw [Finset.sum_range_succ, Finset.sum_range_succ, Finset.sum_range_one]
    rw [Finset.sum_range_one, Finset.sum_range_one, Finset.sum_range_one]
    rw [hs0, hs1, hs2, hz0, hz1, hz2]
    norm_num
  constructor
  · rw [antiLaplacian, antiLaplacianLoop]
    rw [if_neg (by rw [hnorm]; norm_num)]
    rfl
  · show ¬ (normSq 3 1
      (jacobiSweep 3 c3Lap 1 c3Yc [none]
        (applyConstraintsAlongLastAxis c3Yc (fun _ _ => 0)))
      (applyConstraintsAlongLastAxis c3Yc (fun _ _ => 0)) < 1 ^ 2)
    rw [hnorm]
    norm_num

/-- C3 (amended): `anti_laplacian` repeats the Jacobi sweep — starting from
the constraint-applied initial estimate and applying the y (Dirichlet)
constraints after every sweep (visible in `jacobiSweep`) — and, having no
maximum-iteration cap, the call terminates within any number `fuel` of
iterations if and only if the 2-norm of the difference between some pair of
consecutive estimates within that horizon drops TO OR BELOW the tolerance
(the source loops while `diff > tol`); in particular, if no pair of
consecutive estimates ever satisfies `‖yₙ − yₙ₋₁‖₂ ≤ tol`, the call never
terminates. -/
theorem anti_laplacian_terminates_iff (n m : ℕ) (tol d_x : ℚ)
    (lap : ℕ → ℕ → ℚ) (yc : List (Option MeshConstraint)) (dbc : DerivBC)
    (fuel : ℕ) (yInit : ℕ → ℕ → ℚ) :
    (antiLaplacian n m tol d_x lap yc dbc fuel yInit).isSome = true ↔
      ∃ k < fuel,
        normSq n m
          (jacobiSeq n lap d_x yc dbc
            (applyConstraintsAlongLastAxis yc yInit) (k + 1))
          (jacobiSeq n lap d_x yc dbc
            (applyConstraintsAlongLastAxis yc yInit) k) ≤ tol ^ 2 :=
  antiLaplacianLoop_isSome_iff n m tol d_x lap yc dbc fuel
    (applyConstraintsAlongLastAxis yc yInit)

/-- The symbols produced by `Symbols.__init__` (differential_equation.py
lines 18-46): `t`, the `y` components, and — only for positive spatial
dimension — the gradient, Hessian, divergence, curl (for 2 or 3 spatial
dimensions) and Laplacian symbol arrays, identified by their indices into
the corresponding `symarray`. -/
inductive Sym
  | t
  | y (i : ℕ)
  | yGradient (i j : ℕ)
  | yHessian (i j k : ℕ)
  | yDivergence (idx : List ℕ)
  | yCurl (idx : List ℕ)
  | yLaplacian (i : ℕ)
deriving DecidableEq

/-- Membership in the set `all_symbols` built by
`DifferentialEquation._validate_equations` (differential_equation.py lines
246-256) from the `Symbols` bundle: `t` and `y[i]` always; gradient entries
`(i, j)` with `i < y_dim`, `j < x_dim`; Hessian entries likewise; divergence
entries indexed by an `x_dim`-tuple over `y_dim` (the `symarray` shape
`(y_dimension,) * x_dimension`); curl entries only when `2 ≤ x_dim ≤ 3`
(shape `(y_dim, y_dim)` for 2 and `(y_dim, y_dim, y_dim, 3)` for 3); and
Laplacian entries `i < y_dim` — all only when `x_dim > 0`. -/
def isValidSymbol (xDim yDim : ℕ) : Sym → Bool
  | .t => true
  | .y i => decide (i < yDim)
  | .yGradient i j =>
      decide (0 < xDim) && decide (i < yDim) && decide (j < xDim)
  | .yHessian i j k =>
      decide (0 < xDim) && decide (i < yDim) && decide (j < xDim) &&
        decide (k < xDim)
  | .yDivergence idx =>
      decide (0 < xDim) && decide (idx.length = xDim) &&
        idx.all (fun a => decide (a < yDim))
  | .yCurl idx =>
      (decide (xDim = 2) && decide (idx.length = 2) &&
        idx.all (fun a => decide (a < yDim))) ||
      (decide (xDim = 3) && decide (idx.length = 4) &&
        (idx.take 3).all (fun a => decide (a < yDim)) &&
        decide (idx.getD 3 0 < 3))
  | .yLaplacian i => decide (0 < xDim) && decide (i < yDim)

/-- The left-hand-side kinds of `Lhs` (differential_equation.py lines
114-121). -/
inductive Lhs
  | dYOverDT
  | y
  | yLaplacian
deriving DecidableEq

/-- Embedding of `SymbolicEquationSystem` (differential_equation.py lines
124-177) at the level of detail validation needs: each right-hand-side
expression is represented by its set of free symbols (`free_symbols` at line
259), paired with the list of left-hand-side kinds. -/
structure SymbolicEquationSystem where
  rhs : List (List Sym)
  lhsTypes : List Lhs

/-- Error kinds raised by `DifferentialEquation._validate_equations`, using
the spec's error tags for the three `ValueError` sites. -/
inductive EqValidationErr
  | shapeMismatch
  | symbolOutOfScope
  | lhsCombination
deriving DecidableEq

/-- Embedding of `DifferentialEquation._validate_equations`
(differential_equation.py lines 238-268), which runs at construction time:
raise if the right-hand-side count differs from `y_dimension` (line 243);
raise if some free symbol of a right-hand side is outside `all_symbols`
(line 260); if `x_dimension > 0`, raise unless some equation has left-hand
side `∂y/∂t` (line 264); if `x_dimension = 0`, raise if any left-hand side
is `Y` or `Y_LAPLACIAN` (lines 266-268). -/
def validateEquations (xDim yDim : ℕ) (es : SymbolicEquationSystem) :
    Except EqValidationErr Unit :=
  if es.rhs.length ≠ yDim then .error .shapeMismatch
  else if ¬ (es.rhs.all (fun syms => syms.all (isValidSymbol xDim yDim))) then
    .error .symbolOutOfScope
  else if 0 < xDim then
    if Lhs.dYOverDT ∈ es.lhsTypes then .ok () else .error .lhsCombination
  else if Lhs.y ∈ es.lhsTypes ∨ Lhs.yLaplacian ∈ es.lhsTypes then
    .error .lhsCombination
  else .ok ()

/-- C7: constructing a `DifferentialEquation` raises at construction time if
and only if its symbolic equation system is invalid — the right-hand-side
count differs from `y_dimension`, or some free symbol of a right-hand side
is not in the `Symbols` bundle, or `x_dimension = 0` and some left-hand side
is not `∂y/∂t`, or `x_dimension > 0` and no equation has left-hand side
`∂y/∂t`. -/
theorem validate_equations_error_iff (xDim yDim : ℕ)
    (es : SymbolicEquationSystem) :
    validateEquations xDim yDim es ≠ .ok () ↔
      es.rhs.length ≠ yDim ∨
      (∃ syms ∈ es.rhs, ∃ s ∈ syms, ¬ isValidSymbol xDim yDim s = true) ∨
      (xDim = 0 ∧ ∃ l ∈ es.lhsTypes, l ≠ Lhs.dYOverDT) ∨
      (0 < xDim ∧ Lhs.dYOverDT ∉ es.lhsTypes) := by
  have hy :
      (Lhs.y ∈ es.lhsTypes ∨ Lhs.yLaplacian ∈ es.lhsTypes) ↔
        ∃ l ∈ es.lhsTypes, l ≠ Lhs.dYOverDT := by
    constructor
    · rintro (h | h)
      · exact ⟨Lhs.y, h, by simp⟩
      · exact ⟨Lhs.yLaplacian, h, by simp⟩
    · rintro ⟨l, hl, hne⟩
      cases l with
      | dYOverDT => exact absurd rfl hne
      | y => exact Or.inl hl
      | yLaplacian => exact Or.inr hl
  have hall :
      (¬ es.rhs.all (fun syms => syms.all (isValidSymbol xDim yDim)) = true)
        ↔ ∃ syms ∈ es.rhs, ∃ s ∈ syms, ¬ isValidSymbol xDim yDim s = true := by
    simp [List.all_eq_true]
  unfold validateEquations
  split_ifs with h1 h2 h3 h4 h5
  · exact iff_of_true (by simp) (Or.inl h1)
  · refine iff_of_false (by simp) ?_
    rintro (hc | hc | ⟨hc0, -⟩ | ⟨-, hc⟩)
    · exact h1 hc
    · exact (hall.mpr hc) h2
    · omega
    · exact hc h4
  · exact iff_of_true (by simp)
      (Or.inr (Or.inr (Or.inr ⟨h3, h4⟩)))
  · exact iff_of_true (by simp)
      (Or.inr (Or.inr (Or.inl ⟨by omega, hy.mp h5⟩)))
  · refine iff_of_false (by simp) ?_
    rintro (hc | hc | ⟨-, hl⟩ | ⟨hpos, -⟩)
    · exact h1 hc
    · exact (hall.mpr hc) h2
    · exact h5 (hy.mpr hl)
    · omega
  · exact iff_of_true (by simp) (Or.inr (Or.inl (hall.mp h2)))

/-- Witness for C3 at the concrete 3-vertex problem with tolerance 1 and a
fuel of 2 iterations. -/
theorem anti_laplacian_terminates_iff_witness :
    (antiLaplacian 3 1 1 1 c3Lap c3Yc [none] 2 (fun _ _ => 0)).isSome =
        true ↔
      ∃ k < 2,
        normSq 3 1
          (jacobiSeq 3 c3Lap 1 c3Yc [none]
            (applyConstraintsAlongLastAxis c3Yc (fun _ _ => 0)) (k + 1))
          (jacobiSeq 3 c3Lap 1 c3Yc [none]
            (applyConstraintsAlongLastAxis c3Yc (fun _ _ => 0)) k) ≤
          1 ^ 2 :=
  anti_laplacian_terminates_iff 3 1 1 1 c3Lap c3Yc [none] 2 (fun _ _ => 0)

/-- Witness for C6 with an empty constraint list and the zero initial
estimate. -/
theorem anti_laplacian_y_init_mutation_witness :
    antiLaplacianYInitAfter [] (fun _ _ => 0) = (fun _ _ => (0 : ℚ)) ↔
      ∀ j c, ([] : List (Option MeshConstraint))[j]? = some (some c) →
        ∀ i, c.mask i = true → c.values i = (fun (_ _ : ℕ) => (0 : ℚ)) i j :=
  anti_laplacian_y_init_mutation [] (fun _ _ => 0)

/-- Witness for C7 at the scalar ODE system with the single equation
`y₀' = r·y₀` (free symbol `y 0`, left-hand side `∂y/∂t`). -/
theorem validate_equations_error_iff_witness :
    validateEquations 0 1 ⟨[[Sym.y 0]], [Lhs.dYOverDT]⟩ ≠ .ok () ↔
      ([[Sym.y 0]] : List (List Sym)).length ≠ 1 ∨
      (∃ syms ∈ ([[Sym.y 0]] : List (List Sym)), ∃ s ∈ syms,
        ¬ isValidSymbol 0 1 s = true) ∨
      ((0 : ℕ) = 0 ∧ ∃ l ∈ [Lhs.dYOverDT], l ≠ Lhs.dYOverDT) ∨
      ((0 : ℕ) < 0 ∧ Lhs.dYOverDT ∉ [Lhs.dYOverDT]) :=
  validate_equations_error_iff 0 1 ⟨[[Sym.y 0]], [Lhs.dYOverDT]⟩

end PararealML
